import Mathlib

set_option maxRecDepth 8000

/-!
# Verification of the loyalty-ledger / membership-renewal backend

Shallow embedding of the backend's core logic (TypeScript, Express +
Supabase) and proofs checking the natural-language specification against it.

The live program is the module closure of `src/index.ts`:
`src/routes/members.ts`, `src/routes/transactions.ts`,
`src/services/cashbackService.ts`, `src/utils/date.ts`.  The repository also
carries older variants of `members.ts` and `cashbackService.ts` that are not
reachable from the entry point; where behaviour differs, the definitions
below follow the files at the canonical import paths.

Modelling conventions:
* Monetary values are `ℤ` (the JS code does integer arithmetic on them);
  `Math.floor(a / b)` on integers is `Int.fdiv`.
* A calendar date (`CalDate`) is a year/month/day triple; comparison of ISO
  `YYYY-MM-DD` strings (used by the SQL `lte`/`gt` filters and by the code's
  string compares) is comparison of `CalDate.key`.
* An instant (`Instant`) is its Asia/Jakarta civil calendar day plus the
  millisecond of that day.  Jakarta has a fixed UTC offset and no DST, so
  instant comparison and adding whole days in epoch milliseconds agree with
  this civil representation.
* Per-member store state is explicit: lists of ledger entries, transactions
  and membership payments, threaded through the operations.
-/

/-- Calendar date `y-m-d` (Asia/Jakarta civil date). -/
structure CalDate where
  y : ℕ
  m : ℕ
  d : ℕ
deriving DecidableEq

/-- Numeric key whose `ℕ`-order coincides with lexicographic order of the
ISO `YYYY-MM-DD` string for four-digit years (the order used by the SQL
filters and the code's string comparisons). -/
def CalDate.key (dt : CalDate) : ℕ :=
  dt.y * 10000 + dt.m * 100 + dt.d

/-- An instant, represented by its Asia/Jakarta civil day and the
millisecond within that day. -/
structure Instant where
  day : CalDate
  ms : ℕ
deriving DecidableEq

/-- Instant order (lexicographic: day, then time of day). -/
def instLE (a b : Instant) : Prop :=
  a.day.key < b.day.key ∨ (a.day.key = b.day.key ∧ a.ms ≤ b.ms)

/-- Strict instant order. -/
def instLT (a b : Instant) : Prop :=
  a.day.key < b.day.key ∨ (a.day.key = b.day.key ∧ a.ms < b.ms)

instance (a b : Instant) : Decidable (instLE a b) := by
  unfold instLE; infer_instance

instance (a b : Instant) : Decidable (instLT a b) := by
  unfold instLT; infer_instance

/-- luxon `endOf("day")`: 23:59:59.999 of the same Jakarta civil day.
Embeds `DateTime.fromISO(d, { zone: JAKARTA_TZ }).endOf("day")` from
`src/utils/date.ts`. -/
def endOfDay (d : CalDate) : Instant :=
  ⟨d, 86399999⟩

/-- Function `isMembershipActive` from `src/utils/date.ts`: false when
`membershipEndAt` is absent, otherwise `endOf("day")` of the stored end
date's Jakarta day compared `>=` against `at`. -/
def isMembershipActive (membershipEndAt : Option Instant) (at' : Instant) : Bool :=
  match membershipEndAt with
  | none => false
  | some e => decide (instLE at' (endOfDay e.day))

/-- Function `firstDayOfNextMonth` from `src/utils/date.ts`:
`dt.plus({ months: 1 }).startOf("month").toISODate()`.  Adding one luxon
month to a date in month `m` lands in month `m + 1` (day-of-month clamped,
which `startOf("month")` then discards), rolling the year over from
December. -/
def firstDayOfNextMonth (dt : Instant) : CalDate :=
  if dt.day.m = 12 then ⟨dt.day.y + 1, 1, 1⟩ else ⟨dt.day.y, dt.day.m + 1, 1⟩

/-- Gregorian leap year (what JS `Date` / luxon implement). -/
def isLeap (y : ℕ) : Bool :=
  decide ((y % 4 = 0 ∧ y % 100 ≠ 0) ∨ y % 400 = 0)

/-- Days in a Gregorian month. -/
def daysInMonth (y m : ℕ) : ℕ :=
  if m = 2 then (if isLeap y then 29 else 28)
  else if m = 4 ∨ m = 6 ∨ m = 9 ∨ m = 11 then 30
  else 31

/-- Successor calendar day. -/
def nextDay (dt : CalDate) : CalDate :=
  if dt.d < daysInMonth dt.y dt.m then ⟨dt.y, dt.m, dt.d + 1⟩
  else if dt.m < 12 then ⟨dt.y, dt.m + 1, 1⟩
  else ⟨dt.y + 1, 1, 1⟩

/-- Add `n` calendar days. -/
def addDaysN (dt : CalDate) : ℕ → CalDate
  | 0 => dt
  | n + 1 => addDaysN (nextDay dt) n

/-- Adding 30 days in epoch milliseconds
(`new Date(base.getTime() + 30 * 24 * 60 * 60 * 1000)` in the pay route):
under Jakarta's fixed UTC offset this shifts the civil day by 30 and keeps
the time of day. -/
def add30Days (i : Instant) : Instant :=
  ⟨addDaysN i.day 30, i.ms⟩

/-! ## Cashback rule engine (`src/services/cashbackService.ts`) -/

/-- Core of `calculateCashbackForTransaction`
(`src/services/cashbackService.ts`, lines 44 and 67–80): given the sums
`prevCashPaid` / `prevCashbackEarned` over the member's same-day
transactions and the incoming `paidCash`,

* `if (paidCash <= 0) return { earned: 0 }`;
* `unitCount  = Math.floor((prevCashPaid + paidCash) / 15000)`;
* `possibleTotal = Math.min(unitCount * 2500, 5000)`;
* `earnedNow = Math.max(0, possibleTotal - prevCashbackEarned)`. -/
def calculateCashbackEarned (prevCashPaid prevCashbackEarned paidCash : ℤ) : ℤ :=
  if paidCash ≤ 0 then 0
  else max 0 (min (((prevCashPaid + paidCash).fdiv 15000) * 2500) 5000 - prevCashbackEarned)

/-- Replay a list of same-day cash payments through the rule engine, each
step's prior cumulative cash and prior earned amount being the sums over
the earlier steps (first component: cumulative cash; second: cumulative
earned). -/
def cashbackReplay (payments : List ℤ) : ℤ × ℤ :=
  payments.foldl
    (fun s p => (s.1 + p, s.2 + calculateCashbackEarned s.1 s.2 p)) (0, 0)

/-- The capped theoretical daily total for cumulative cash `c`:
`min(floor(c / 15000) * 2500, 5000)`. -/
def dailyCashbackTotal (c : ℤ) : ℤ :=
  min ((c.fdiv 15000) * 2500) 5000

/-! ## Cashback ledger (`cashback_ledger` table) -/

/-- Column `entry_type` of `cashback_ledger`. -/
inductive EntryType where
  | earn
  | spend
  | adjust
deriving DecidableEq

/-- One `cashback_ledger` row (member reference, transaction reference and
description omitted: the claims never consult them).  `spend` rows are
inserted with a negative `amount` (`addCashbackSpendEntry` stores
`-spent`); `usable_from` is `NULL` for spend rows. -/
structure LedgerEntry where
  entryType : EntryType
  amount : ℤ
  usableFrom : Option CalDate
deriving DecidableEq

/-- Function `getUsableCashbackBalance` from `src/services/cashbackService.ts`
(the balance used by `POST /transactions`): the sum of `earn` rows with
`usable_from <= today` (a SQL `lte` filter, so rows with `NULL`
`usable_from` are excluded) plus the sum of all `spend`/`adjust` rows'
amounts as stored (negative).  `today = at.toISODate()`. -/
def getUsableCashbackBalance (ledger : List LedgerEntry) (today : CalDate) : ℤ :=
  let earns := ledger.filter fun e =>
    decide (e.entryType = EntryType.earn) &&
      (match e.usableFrom with
       | some u => decide (u.key ≤ today.key)
       | none => false)
  let spends := ledger.filter fun e =>
    decide (e.entryType = EntryType.spend) || decide (e.entryType = EntryType.adjust)
  (earns.map (·.amount)).sum + (spends.map (·.amount)).sum

/-- Function `getCashbackSummary` from `src/routes/members.ts` (the member-detail
summary): one pass over all ledger rows; `earn` rows with
`usable_from <= today` add to the usable figure, other `earn` rows to the
pending figure; `spend` rows are handled by `usableCashback -= amt`;
`adjust` rows are skipped; finally the usable figure is floored at zero.
Returns `(usableCashback, pendingCashback)`. -/
def getCashbackSummary (ledger : List LedgerEntry) (today : CalDate) : ℤ × ℤ :=
  let s := ledger.foldl
    (fun (acc : ℤ × ℤ) e =>
      if e.entryType = EntryType.earn then
        match e.usableFrom with
        | some u =>
          if u.key ≤ today.key then (acc.1 + e.amount, acc.2)
          else (acc.1, acc.2 + e.amount)
        | none => (acc.1, acc.2 + e.amount)
      else if e.entryType = EntryType.spend then (acc.1 - e.amount, acc.2)
      else acc)
    (0, 0)
  (max s.1 0, s.2)

/-- Function `addCashbackEarnEntry` from `src/services/cashbackService.ts` as a
transformer of the member's ledger rows: no-op when `earned <= 0`,
otherwise appends an `earn` row with `usable_from = firstDayOfNextMonth(at)`. -/
def addCashbackEarnEntry (ledger : List LedgerEntry) (earned : ℤ) (at' : Instant) :
    List LedgerEntry :=
  if earned ≤ 0 then ledger
  else ledger ++ [⟨EntryType.earn, earned, some (firstDayOfNextMonth at')⟩]

/-- Function `addCashbackSpendEntry` from `src/services/cashbackService.ts`: no-op
when `spent <= 0`, otherwise appends a `spend` row with amount `-spent`
and no `usable_from`. -/
def addCashbackSpendEntry (ledger : List LedgerEntry) (spent : ℤ) :
    List LedgerEntry :=
  if spent ≤ 0 then ledger
  else ledger ++ [⟨EntryType.spend, -spent, none⟩]

/-! ## Membership renewal (`src/routes/members.ts`: pay / undo-last-payment)

The `membership_payments` rows of one member are modelled as a list ordered
most-recent-first (the view the store's `order("paid_at", descending)` query
returns); the pay route inserts the new payment with `paid_at = now`, which
is later than every stored `paid_at`, so the insert prepends. -/

/-- One `membership_payments` row as the live pay route writes it:
`member_id` omitted (state is per member); `period_start` is the base date
used and `period_end` the resulting end date.  No column records the
member's `membership_end_at` from before the payment. -/
structure MembershipPayment where
  paidAt : Instant
  amount : ℤ
  periodStart : Instant
  periodEnd : Instant
deriving DecidableEq

/-- Per-member membership state: the `members.membership_end_at` column and
the member's `membership_payments` rows (most recent first). -/
structure MemberState where
  membershipEndAt : Option Instant
  payments : List MembershipPayment
deriving DecidableEq

/-- Error kinds surfaced by the membership routes. -/
inductive OpError where
  | noPaymentToUndo
  | storeUnavailable
deriving DecidableEq

/-- Outcome of a membership operation: the error (if any) and the state the
store is left in. -/
structure PayOutcome where
  err : Option OpError
  state : MemberState
deriving DecidableEq

/-- The base-date decision of the live pay route:
`let baseDate = nowDate; if (currentEnd && currentEnd > nowDate)
baseDate = currentEnd` — a strict comparison of the stored end instant
against the current instant (no end-of-day extension, no zone-aware day
boundary). -/
def payBase (membershipEndAt : Option Instant) (now : Instant) : Instant :=
  match membershipEndAt with
  | some e => if instLT now e then e else now
  | none => now

/-- Route `POST /members/:id/membership/pay` with an explicit failure schedule for
the two store writes.  The route inserts the `membership_payments` row
first and updates `members.membership_end_at` second; each write either
succeeds or fails (`insertFails` / `updateFails`), and on failure the route
returns a 500 without undoing the earlier write. -/
def payRun (st : MemberState) (amount : ℤ) (now : Instant)
    (insertFails updateFails : Bool) : PayOutcome :=
  let base := payBase st.membershipEndAt now
  let newEnd := add30Days base
  if insertFails then ⟨some OpError.storeUnavailable, st⟩
  else
    let afterInsert : MemberState :=
      ⟨st.membershipEndAt, ⟨now, amount, base, newEnd⟩ :: st.payments⟩
    if updateFails then ⟨some OpError.storeUnavailable, afterInsert⟩
    else ⟨none, ⟨some newEnd, afterInsert.payments⟩⟩

/-- The pay route when both store writes succeed. -/
def pay (st : MemberState) (amount : ℤ) (now : Instant) : PayOutcome :=
  payRun st amount now false false

/-- Route `POST /members/:id/membership/undo-last-payment` with an explicit
failure schedule.  The route selects the two most recent payments, fails
with a 400 (`NoPaymentToUndo`) when there is none, deletes the most recent
row, and then sets `members.membership_end_at` to the second row's
`period_end` (or `NULL` when there is no second row). -/
def undoRun (st : MemberState) (deleteFails updateFails : Bool) : PayOutcome :=
  match st.payments with
  | [] => ⟨some OpError.noPaymentToUndo, st⟩
  | _last :: rest =>
    if deleteFails then ⟨some OpError.storeUnavailable, st⟩
    else
      let afterDelete : MemberState := ⟨st.membershipEndAt, rest⟩
      if updateFails then ⟨some OpError.storeUnavailable, afterDelete⟩
      else
        let newEnd : Option Instant :=
          match rest with
          | [] => none
          | p :: _ => some p.periodEnd
        ⟨none, ⟨newEnd, rest⟩⟩

/-- The undo route when both store writes succeed. -/
def undoLastPayment (st : MemberState) : PayOutcome :=
  undoRun st false false

/-- A member state is consistent when `membership_end_at` matches the most
recent payment's `period_end` (absent when there are no payments) — the
invariant every state reachable through pay/undo alone satisfies. -/
def consistentState (st : MemberState) : Prop :=
  st.membershipEndAt =
    (match st.payments with
     | [] => none
     | p :: _ => some p.periodEnd)

/-! ## Transaction orchestrator (`src/routes/transactions.ts`) -/

/-- One `transactions` row as `POST /transactions` inserts it
(member reference and id omitted). -/
structure Txn where
  transactedAt : Instant
  dayKey : CalDate
  totalAmount : ℤ
  paidCash : ℤ
  paidCashback : ℤ
  cashbackEarned : ℤ
  cashbackSpent : ℤ
deriving DecidableEq

/-- Field `paymentType` of the request body (`z.enum(["cash", "cashback"])`). -/
inductive PaymentType where
  | cash
  | cashback
deriving DecidableEq

/-- Business-rule rejections of `POST /transactions` (the two invalid
`cashbackToUse` rejections share the `invalidAmount` kind; member lookup
and input-shape validation happen before everything modelled here). -/
inductive TxError where
  | membershipInactive
  | invalidAmount
  | insufficientCashback
deriving DecidableEq

/-- The per-member store state `POST /transactions` reads and writes. -/
structure TxStore where
  membershipEndAt : Option Instant
  txs : List Txn
  ledger : List LedgerEntry
deriving DecidableEq

/-- Outcome of `POST /transactions`: the rejection (if any) and the state
the store is left in. -/
structure TxOutcome where
  err : Option TxError
  store : TxStore
deriving DecidableEq

/-- The same-day transaction filter of `calculateCashbackForTransaction`:
`transacted_at` between `at.startOf("day")` and `at.endOf("day")`
(Jakarta day of `at`). -/
def sameJakartaDay (t at' : Instant) : Bool :=
  decide (instLE ⟨at'.day, 0⟩ t) && decide (instLE t (endOfDay at'.day))

/-- Function `calculateCashbackForTransaction` from
`src/services/cashbackService.ts`: sums `paid_cash` and `cashback_earned`
over the member's transactions of `at`'s day and applies the earning rule
(`calculateCashbackEarned` carries the function's `paidCash <= 0` early
return). -/
def calculateCashbackForTransaction (txs : List Txn) (at' : Instant)
    (paidCash : ℤ) : ℤ :=
  let rows := txs.filter fun t => sameJakartaDay t.transactedAt at'
  let prevCashPaid := (rows.map (·.paidCash)).sum
  let prevCashbackEarned := (rows.map (·.cashbackEarned)).sum
  calculateCashbackEarned prevCashPaid prevCashbackEarned paidCash

/-- Route `POST /transactions` (happy-path store writes): reject while nothing
has been written when `paymentType = cashback` and the membership is
inactive; for cashback payments also reject `cashbackToUse <= 0`,
`cashbackToUse > totalAmount`, and `cashbackToUse > usableBalance` (in that
order, the balance read before this transaction's own entries); otherwise
insert the `transactions` row, then the earn ledger row (when the earned
amount is positive), then the spend ledger row (when cashback was used). -/
def postTransaction (st : TxStore) (totalAmount : ℤ)
    (paymentType : PaymentType) (cashbackToUse : ℤ) (at' : Instant) :
    TxOutcome :=
  let membershipActive := isMembershipActive st.membershipEndAt at'
  if paymentType = PaymentType.cashback ∧ membershipActive = false then
    ⟨some TxError.membershipInactive, st⟩
  else
    let split : Except TxError (ℤ × ℤ) :=
      if paymentType = PaymentType.cash then Except.ok (totalAmount, 0)
      else
        let usableBalance := getUsableCashbackBalance st.ledger at'.day
        if cashbackToUse ≤ 0 then Except.error TxError.invalidAmount
        else if totalAmount < cashbackToUse then Except.error TxError.invalidAmount
        else if usableBalance < cashbackToUse then
          Except.error TxError.insufficientCashback
        else Except.ok (totalAmount - cashbackToUse, cashbackToUse)
    match split with
    | Except.error e => ⟨some e, st⟩
    | Except.ok (paidCash, paidCashback) =>
      let cashbackEarned :=
        if membershipActive = true ∧ 0 < paidCash then
          calculateCashbackForTransaction st.txs at' paidCash
        else 0
      let tx : Txn :=
        ⟨at', at'.day, totalAmount, paidCash, paidCashback,
          cashbackEarned, paidCashback⟩
      let ledger1 := addCashbackEarnEntry st.ledger cashbackEarned at'
      let ledger2 := addCashbackSpendEntry ledger1 paidCashback
      ⟨none, ⟨st.membershipEndAt, tx :: st.txs, ledger2⟩⟩

/-! ## Member views (`src/routes/members.ts`) -/

/-- A `members` row as the list view reads it (name/whatsapp omitted). -/
structure MemberRow where
  membershipEndAt : Option Instant
deriving DecidableEq

/-- The list view's projection of a member row. -/
structure MemberView where
  membershipEndAt : Option Instant
  isActive : Bool
deriving DecidableEq

/-- Function `mapMemberRow` from `src/routes/members.ts`, used by `GET /members` and
the create/update routes: `isActive = isMembershipActive(membership_end_at,
nowJkt())` (the clock passed explicitly here). -/
def mapMemberRow (row : MemberRow) (now : Instant) : MemberView :=
  ⟨row.membershipEndAt, isMembershipActive row.membershipEndAt now⟩

/-- The activity decision inside the live pay route, as a predicate:
`currentEnd && currentEnd > nowDate` (strict instant comparison — contrast
with `isMembershipActive`). -/
def payConsidersActive (membershipEndAt : Option Instant) (now : Instant) :
    Bool :=
  match membershipEndAt with
  | some e => decide (instLT now e)
  | none => false

/-! ## Theorems -/

theorem dailyCashbackTotal_mono {a b : ℤ} (h : a ≤ b) :
    dailyCashbackTotal a ≤ dailyCashbackTotal b := by
  unfold dailyCashbackTotal
  have hd : a.fdiv 15000 ≤ b.fdiv 15000 := by
    rw [Int.fdiv_eq_ediv _ (by norm_num), Int.fdiv_eq_ediv _ (by norm_num)]
    exact Int.ediv_le_ediv (by norm_num) h
  exact min_le_min (mul_le_mul_of_nonneg_right hd (by norm_num)) (le_refl _)

theorem dailyCashbackTotal_nonneg {c : ℤ} (hc : 0 ≤ c) :
    0 ≤ dailyCashbackTotal c := by
  unfold dailyCashbackTotal
  exact le_min (mul_nonneg (Int.fdiv_nonneg hc (by norm_num)) (by norm_num))
    (by norm_num)

/-- One engine step from a replay-consistent state: starting from cumulative
cash `c` with earned `dailyCashbackTotal c`, a payment `p ≥ 0` earns exactly
the increment of the capped total. -/
theorem calculateCashbackEarned_step {c p : ℤ} (hp : 0 ≤ p) :
    calculateCashbackEarned c (dailyCashbackTotal c) p =
      dailyCashbackTotal (c + p) - dailyCashbackTotal c := by
  unfold calculateCashbackEarned
  rcases lt_or_eq_of_le hp with hp' | hp'
  · rw [if_neg (not_le.mpr hp')]
    have hmono : dailyCashbackTotal c ≤ dailyCashbackTotal (c + p) :=
      dailyCashbackTotal_mono (by linarith)
    show max 0 (dailyCashbackTotal (c + p) - dailyCashbackTotal c) =
      dailyCashbackTotal (c + p) - dailyCashbackTotal c
    exact max_eq_right (by linarith)
  · rw [if_pos (by omega)]
    have hcp : c + p = c := by omega
    rw [hcp, sub_self]

/-- Replaying from a consistent state `(c, dailyCashbackTotal c)` with
non-negative payments tracks the capped total of the cumulative cash. -/
theorem cashbackReplay_invariant (l : List ℤ) :
    ∀ c : ℤ, (∀ p ∈ l, 0 ≤ p) →
      List.foldl (fun s p => (s.1 + p, s.2 + calculateCashbackEarned s.1 s.2 p))
        (c, dailyCashbackTotal c) l =
      (c + l.sum, dailyCashbackTotal (c + l.sum)) := by
  induction l with
  | nil => intro c _; simp
  | cons p t ih =>
    intro c hl
    have hp : 0 ≤ p := hl p (List.mem_cons_self _ _)
    have hstate : dailyCashbackTotal c +
        calculateCashbackEarned c (dailyCashbackTotal c) p =
        dailyCashbackTotal (c + p) := by
      rw [calculateCashbackEarned_step hp]; ring
    simp only [List.foldl_cons]
    rw [show ((c, dailyCashbackTotal c).1 + p,
          (c, dailyCashbackTotal c).2 +
            calculateCashbackEarned (c, dailyCashbackTotal c).1
              (c, dailyCashbackTotal c).2 p) =
        (c + p, dailyCashbackTotal (c + p)) from by
      simp only []
      rw [hstate]]
    rw [ih (c + p) (fun q hq => hl q (List.mem_cons_of_mem _ hq))]
    simp [add_assoc]

/-- C2. For every finite sequence of same-day cash payments by one member,
processed in order by the rule engine (each step's prior cash and prior
earned being the sums over the earlier steps), the cumulative earned amount
never exceeds 5000, and the cumulative total earned depends only on the
cumulative cash paid, not on how the cash is split or ordered. -/
theorem C2_daily_cap_and_split_invariance (l l' : List ℤ)
    (h : ∀ p ∈ l, 0 ≤ p) (h' : ∀ p ∈ l', 0 ≤ p) (hsum : l.sum = l'.sum) :
    (cashbackReplay l).2 ≤ 5000 ∧ (cashbackReplay l).2 = (cashbackReplay l').2 := by
  have key : ∀ (m : List ℤ), (∀ p ∈ m, 0 ≤ p) →
      cashbackReplay m = (m.sum, dailyCashbackTotal m.sum) := by
    intro m hm
    unfold cashbackReplay
    have h0 : dailyCashbackTotal 0 = 0 := by decide
    have hinv := cashbackReplay_invariant m 0 hm
    rw [h0] at hinv
    simpa using hinv
  rw [key l h, key l' h', hsum]
  exact ⟨min_le_right _ _, rfl⟩

/-- Witness for C2: splitting one 45,000 payment into three 15,000 payments
yields the same total earned (2,500 + 2,500 + 0 = 5,000, at the cap). -/
theorem C2_daily_cap_and_split_invariance_witness :
    (cashbackReplay [15000, 15000, 15000]).2 ≤ 5000 ∧
      (cashbackReplay [15000, 15000, 15000]).2 = (cashbackReplay [45000]).2 :=
  C2_daily_cap_and_split_invariance [15000, 15000, 15000] [45000]
    (by decide) (by decide) (by decide)

/-- C1. For every call to the cashback rule engine with prior same-day
cumulative cash `C ≥ 0`, prior same-day earned `E ≥ 0` and incoming cash
amount `p`, the newly earned amount equals
`max 0 (min 5000 (floor((C + p) / 15000) * 2500) - E)` for every positive
`p`; an incoming cash amount of zero earns zero (the engine short-circuits
before evaluating the formula), and if `E` already equals or exceeds 5000
nothing more is earned. -/
theorem C1_rule_engine_earned_formula (C E p : ℤ) (hC : 0 ≤ C) (hE : 0 ≤ E) :
    (0 < p → calculateCashbackEarned C E p
        = max 0 (min 5000 (((C + p).fdiv 15000) * 2500) - E))
    ∧ (p = 0 → calculateCashbackEarned C E p = 0)
    ∧ (5000 ≤ E → calculateCashbackEarned C E p = 0) := by
  refine ⟨?_, ?_, ?_⟩
  · intro hp
    unfold calculateCashbackEarned
    rw [if_neg (not_le.mpr hp), min_comm]
  · intro hp
    subst hp
    unfold calculateCashbackEarned
    rw [if_pos le_rfl]
  · intro hcap
    unfold calculateCashbackEarned
    split
    · rfl
    · refine max_eq_left ?_
      have hmin : min (((C + p).fdiv 15000) * 2500) 5000 ≤ 5000 :=
        min_le_right _ _
      linarith

/-- Witness for C1: prior cash 15,000, prior earned 2,500, incoming 30,000
earns `max 0 (min 5000 (3 * 2500) - 2500) = 2500`. -/
theorem C1_rule_engine_earned_formula_witness :
    calculateCashbackEarned 15000 2500 30000
      = max 0 (min 5000 ((((15000:ℤ) + 30000).fdiv 15000) * 2500) - 2500) :=
  (C1_rule_engine_earned_formula 15000 2500 30000 (by decide) (by decide)).1
    (by decide)

/-- C3. The two exposed computations of the usable cashback balance do not
agree: on a ledger holding one activated earn of 5,000 and one spend of
2,000 (stored as −2,000, the sign convention `addCashbackSpendEntry`
writes), the service balance used by `POST /transactions` is 3,000 — the
spec's formula — while the member-detail summary (`getCashbackSummary`)
reports 7,000, because `usableCashback -= amt` on the negative stored
amount adds the spend back instead of subtracting it. -/
theorem C3_detail_summary_spend_sign_divergence :
    getUsableCashbackBalance
        [⟨EntryType.earn, 5000, some ⟨2025, 1, 1⟩⟩,
         ⟨EntryType.spend, -2000, none⟩] ⟨2025, 6, 1⟩ = 3000
    ∧ (getCashbackSummary
        [⟨EntryType.earn, 5000, some ⟨2025, 1, 1⟩⟩,
         ⟨EntryType.spend, -2000, none⟩] ⟨2025, 6, 1⟩).1 = 7000 := by
  constructor <;> decide

/-- Appending one earn row changes the service balance exactly when its
`usable_from` day is at or before the `asOf` day. -/
theorem getUsableCashbackBalance_append_earn (ledger : List LedgerEntry)
    (amount : ℤ) (u today : CalDate) :
    getUsableCashbackBalance (ledger ++ [⟨EntryType.earn, amount, some u⟩]) today
      = getUsableCashbackBalance ledger today
        + (if u.key ≤ today.key then amount else 0) := by
  unfold getUsableCashbackBalance
  simp only [List.filter_append, List.map_append, List.sum_append,
    List.filter_cons, List.filter_nil]
  by_cases hu : u.key ≤ today.key
  · simp [hu]
    ring
  · simp [hu]

/-- C4. An earn posting with a positive amount at an instant on day `D`
appends a ledger row whose `usable_from` is the first day of the calendar
month after `D` (day-of-month 1, linear month index one more than `D`'s);
that row is excluded from the usable balance for any `asOf` day strictly
before `usable_from` and included once `asOf` is at or after it; an entry
whose `usable_from` equals the `asOf` day counts as spendable. -/
theorem C4_delayed_activation (ledger : List LedgerEntry) (earned : ℤ)
    (at' : Instant) (asOf : CalDate) (h : 0 < earned) :
    (addCashbackEarnEntry ledger earned at'
        = ledger ++ [⟨EntryType.earn, earned, some (firstDayOfNextMonth at')⟩])
    ∧ ((firstDayOfNextMonth at').d = 1
        ∧ (firstDayOfNextMonth at').y * 12 + (firstDayOfNextMonth at').m
            = at'.day.y * 12 + at'.day.m + 1)
    ∧ (asOf.key < (firstDayOfNextMonth at').key →
        getUsableCashbackBalance (addCashbackEarnEntry ledger earned at') asOf
          = getUsableCashbackBalance ledger asOf)
    ∧ ((firstDayOfNextMonth at').key ≤ asOf.key →
        getUsableCashbackBalance (addCashbackEarnEntry ledger earned at') asOf
          = getUsableCashbackBalance ledger asOf + earned)
    ∧ (firstDayOfNextMonth at' = asOf →
        getUsableCashbackBalance (addCashbackEarnEntry ledger earned at') asOf
          = getUsableCashbackBalance ledger asOf + earned) := by
  have happ : addCashbackEarnEntry ledger earned at'
      = ledger ++ [⟨EntryType.earn, earned, some (firstDayOfNextMonth at')⟩] := by
    unfold addCashbackEarnEntry
    rw [if_neg (not_le.mpr h)]
  refine ⟨happ, ⟨?_, ?_⟩, ?_, ?_, ?_⟩
  · unfold firstDayOfNextMonth
    split <;> rfl
  · unfold firstDayOfNextMonth
    split
    · next h12 =>
      show (at'.day.y + 1) * 12 + 1 = at'.day.y * 12 + at'.day.m + 1
      omega
    · show at'.day.y * 12 + (at'.day.m + 1) = at'.day.y * 12 + at'.day.m + 1
      omega
  · intro hlt
    rw [happ, getUsableCashbackBalance_append_earn,
      if_neg (by omega), add_zero]
  · intro hle
    rw [happ, getUsableCashbackBalance_append_earn, if_pos hle]
  · intro heq
    rw [happ, getUsableCashbackBalance_append_earn,
      if_pos (by rw [heq])]

/-- Witness for C4: an earn of 2,500 posted on 2025-06-15 activates on
2025-07-01; on the boundary day 2025-07-01 itself it is already counted. -/
theorem C4_delayed_activation_witness :
    (0:ℤ) < 2500
    ∧ ((firstDayOfNextMonth ⟨⟨2025, 6, 15⟩, 0⟩).key
          ≤ (⟨2025, 7, 1⟩ : CalDate).key →
        getUsableCashbackBalance
            (addCashbackEarnEntry [] 2500 ⟨⟨2025, 6, 15⟩, 0⟩) ⟨2025, 7, 1⟩
          = getUsableCashbackBalance [] ⟨2025, 7, 1⟩ + 2500) :=
  ⟨by decide,
    (C4_delayed_activation [] 2500 ⟨⟨2025, 6, 15⟩, 0⟩ ⟨2025, 7, 1⟩
      (by decide)).2.2.2.1⟩

/-- C5 (amended). The live pay route determines the base date by the strict
instant comparison `membershipEndAt > paidAt` (no end-of-day extension): if
`membershipEndAt` exists and is strictly after `paidAt`, the new end equals
`membershipEndAt + 30 days`, otherwise `paidAt + 30 days`; a
`membership_payments` row recording the payment time, the amount, the base
(`period_start`) and the new end (`period_end`) — not the prior end date —
is prepended, and `membership_end_at` is set to the new end. -/
theorem C5_pay_semantics (st : MemberState) (amount : ℤ) (now : Instant) :
    (pay st amount now).err = none
    ∧ (pay st amount now).state.membershipEndAt
        = some (add30Days (payBase st.membershipEndAt now))
    ∧ (pay st amount now).state.payments
        = ⟨now, amount, payBase st.membershipEndAt now,
            add30Days (payBase st.membershipEndAt now)⟩ :: st.payments
    ∧ (∀ e, st.membershipEndAt = some e → instLT now e →
        payBase st.membershipEndAt now = e)
    ∧ (∀ e, st.membershipEndAt = some e → ¬ instLT now e →
        payBase st.membershipEndAt now = now)
    ∧ (st.membershipEndAt = none → payBase st.membershipEndAt now = now) := by
  refine ⟨rfl, rfl, rfl, ?_, ?_, ?_⟩
  · intro e he hlt
    rw [he]
    show (if instLT now e then e else now) = e
    rw [if_pos hlt]
  · intro e he hnlt
    rw [he]
    show (if instLT now e then e else now) = now
    rw [if_neg hnlt]
  · intro he
    rw [he]
    rfl

/-- Counterexample for C5 as stated.  A lapsed member (end 2020-01-01 gone
by) pays on 2025-06-15: no field of the created payment row records the
prior end date 2020-01-01.  And a member whose end date is the current day
(end-of-day rule: still Active, so the claim's new end would be
`membershipEndAt + 30 days`) instead gets `paidAt + 30 days`. -/
theorem C5_pay_counterexample :
    (∀ p ∈ (pay ⟨some ⟨⟨2020, 1, 1⟩, 0⟩, []⟩ 35000
        ⟨⟨2025, 6, 15⟩, 43200000⟩).state.payments,
      p.paidAt ≠ ⟨⟨2020, 1, 1⟩, 0⟩ ∧ p.periodStart ≠ ⟨⟨2020, 1, 1⟩, 0⟩
        ∧ p.periodEnd ≠ ⟨⟨2020, 1, 1⟩, 0⟩)
    ∧ isMembershipActive (some ⟨⟨2025, 6, 15⟩, 0⟩) ⟨⟨2025, 6, 15⟩, 43200000⟩
        = true
    ∧ (pay ⟨some ⟨⟨2025, 6, 15⟩, 0⟩, []⟩ 35000
        ⟨⟨2025, 6, 15⟩, 43200000⟩).state.membershipEndAt
        ≠ some (add30Days ⟨⟨2025, 6, 15⟩, 0⟩) := by
  refine ⟨by decide, by decide, by decide⟩

/-- Witness for C5 (amended): a member whose end date 2025-07-01 is still
ahead of the 2025-06-15 payment keeps it as the base. -/
theorem C5_pay_semantics_witness :
    (pay ⟨some ⟨⟨2025, 7, 1⟩, 0⟩, []⟩ 35000 ⟨⟨2025, 6, 15⟩, 0⟩).err = none
    ∧ payBase (some ⟨⟨2025, 7, 1⟩, 0⟩) ⟨⟨2025, 6, 15⟩, 0⟩ = ⟨⟨2025, 7, 1⟩, 0⟩ :=
  ⟨(C5_pay_semantics ⟨some ⟨⟨2025, 7, 1⟩, 0⟩, []⟩ 35000 ⟨⟨2025, 6, 15⟩, 0⟩).1,
   (C5_pay_semantics ⟨some ⟨⟨2025, 7, 1⟩, 0⟩, []⟩ 35000
      ⟨⟨2025, 6, 15⟩, 0⟩).2.2.2.1 ⟨⟨2025, 7, 1⟩, 0⟩ rfl (by decide)⟩

/-- C6 (amended). Pay followed by undo restores the exact prior state for
every consistent member state — one whose `membership_end_at` equals the
most recent payment's `period_end`, or is absent when there are no
payments (so an absent end date is restored to absent after a first
payment is undone).  The live undo route recovers the end date from the
previous payment row, not from a recorded prior end, so consistency is
what makes the round trip exact. -/
theorem C6_pay_undo_roundtrip (st : MemberState) (amount : ℤ) (now : Instant)
    (h : consistentState st) :
    (undoLastPayment (pay st amount now).state).err = none
    ∧ (undoLastPayment (pay st amount now).state).state = st := by
  cases st with
  | mk endAt payments =>
    cases payments with
    | nil =>
      have h' : endAt = none := h
      subst h'
      exact ⟨rfl, rfl⟩
    | cons q t =>
      have h' : endAt = some q.periodEnd := h
      subst h'
      exact ⟨rfl, rfl⟩

/-- Counterexample for C6 as stated: on the (reachable-only-externally)
state with `membership_end_at = 2020-01-01` and no payment rows, pay
followed by undo sets `membership_end_at` to absent instead of restoring
2020-01-01. -/
theorem C6_pay_undo_counterexample :
    (undoLastPayment (pay ⟨some ⟨⟨2020, 1, 1⟩, 0⟩, []⟩ 35000
        ⟨⟨2025, 6, 15⟩, 0⟩).state).state.membershipEndAt = none
    ∧ (undoLastPayment (pay ⟨some ⟨⟨2020, 1, 1⟩, 0⟩, []⟩ 35000
        ⟨⟨2025, 6, 15⟩, 0⟩).state).state
        ≠ (⟨some ⟨⟨2020, 1, 1⟩, 0⟩, []⟩ : MemberState) := by
  refine ⟨by decide, by decide⟩

/-- Witness for C6 (amended): a member with no end date and no payments —
pay then undo restores the absent end date. -/
theorem C6_pay_undo_roundtrip_witness :
    (undoLastPayment (pay ⟨none, []⟩ 35000 ⟨⟨2025, 6, 15⟩, 0⟩).state).state
      = (⟨none, []⟩ : MemberState) :=
  (C6_pay_undo_roundtrip ⟨none, []⟩ 35000 ⟨⟨2025, 6, 15⟩, 0⟩ rfl).2

/-- C7 (amended). Undo on a member with zero payments always fails with
`NoPaymentToUndo` and never mutates state; an undo fails exactly when no
payment row remains, so a second consecutive undo fails only in that case —
with older payments still in history it succeeds and rolls the next payment
back (undo is not limited to one level). -/
theorem C7_undo_of_nothing (st : MemberState) :
    ((undoLastPayment st).err = some OpError.noPaymentToUndo
        ↔ st.payments = [])
    ∧ (st.payments = [] → (undoLastPayment st).state = st)
    ∧ (∀ p rest, st.payments = p :: rest →
        (undoLastPayment st).err = none
        ∧ (undoLastPayment st).state.payments = rest) := by
  cases st with
  | mk endAt payments =>
    cases payments with
    | nil =>
      refine ⟨by simp [undoLastPayment, undoRun], fun _ => rfl, ?_⟩
      intro p rest h
      exact List.noConfusion h
    | cons q t =>
      refine ⟨?_, ?_, ?_⟩
      · simp [undoLastPayment, undoRun]
      · intro h
        exact List.noConfusion h
      · intro p rest h
        injection h with h1 h2
        subst h1
        subst h2
        exact ⟨rfl, rfl⟩

/-- Witness for C7 (amended): zero payments — the undo fails with
`NoPaymentToUndo` and leaves the state untouched. -/
theorem C7_undo_of_nothing_witness :
    (undoLastPayment ⟨none, []⟩).err = some OpError.noPaymentToUndo
    ∧ (undoLastPayment ⟨none, []⟩).state = (⟨none, []⟩ : MemberState) :=
  ⟨(C7_undo_of_nothing ⟨none, []⟩).1.mpr rfl,
   (C7_undo_of_nothing ⟨none, []⟩).2.1 rfl⟩

/-- Counterexample for C7 as stated: with two payments in history, a second
consecutive undo (no intervening payment) succeeds and removes the second
payment instead of failing. -/
theorem C7_second_undo_counterexample :
    (undoLastPayment (undoLastPayment
        ⟨some ⟨⟨2025, 6, 10⟩, 0⟩,
          [⟨⟨⟨2025, 6, 10⟩, 0⟩, 35000, ⟨⟨2025, 5, 11⟩, 0⟩, ⟨⟨2025, 6, 10⟩, 0⟩⟩,
           ⟨⟨⟨2025, 5, 11⟩, 0⟩, 35000, ⟨⟨2025, 4, 11⟩, 0⟩,
             ⟨⟨2025, 5, 11⟩, 0⟩⟩]⟩).state).err = none
    ∧ (undoLastPayment (undoLastPayment
        ⟨some ⟨⟨2025, 6, 10⟩, 0⟩,
          [⟨⟨⟨2025, 6, 10⟩, 0⟩, 35000, ⟨⟨2025, 5, 11⟩, 0⟩, ⟨⟨2025, 6, 10⟩, 0⟩⟩,
           ⟨⟨⟨2025, 5, 11⟩, 0⟩, 35000, ⟨⟨2025, 4, 11⟩, 0⟩,
             ⟨⟨2025, 5, 11⟩, 0⟩⟩]⟩).state).state.payments = [] := by
  refine ⟨by decide, by decide⟩

/-- C8. `POST /transactions` rejects — returning the error with the store
untouched, before any transaction or ledger write — with
`MembershipInactive` whenever the payment mode is cashback and the member
is inactive at the transaction time; with an invalid-amount rejection when
`cashbackToUse` is non-positive or exceeds `totalAmount`; and with
`InsufficientCashback` when a valid `cashbackToUse` exceeds the usable
balance at that time. -/
theorem C8_post_transaction_rejections (st : TxStore)
    (totalAmount cashbackToUse : ℤ) (at' : Instant) :
    (isMembershipActive st.membershipEndAt at' = false →
      postTransaction st totalAmount PaymentType.cashback cashbackToUse at'
        = ⟨some TxError.membershipInactive, st⟩)
    ∧ (isMembershipActive st.membershipEndAt at' = true →
        cashbackToUse ≤ 0 →
        postTransaction st totalAmount PaymentType.cashback cashbackToUse at'
          = ⟨some TxError.invalidAmount, st⟩)
    ∧ (isMembershipActive st.membershipEndAt at' = true →
        0 < cashbackToUse → totalAmount < cashbackToUse →
        postTransaction st totalAmount PaymentType.cashback cashbackToUse at'
          = ⟨some TxError.invalidAmount, st⟩)
    ∧ (isMembershipActive st.membershipEndAt at' = true →
        0 < cashbackToUse → cashbackToUse ≤ totalAmount →
        getUsableCashbackBalance st.ledger at'.day < cashbackToUse →
        postTransaction st totalAmount PaymentType.cashback cashbackToUse at'
          = ⟨some TxError.insufficientCashback, st⟩) := by
  refine ⟨?_, ?_, ?_, ?_⟩
  · intro hinact
    simp [postTransaction, hinact]
  · intro hact hle
    simp [postTransaction, hact, hle]
  · intro hact h0 hgt
    simp [postTransaction, hact, not_le.mpr h0, hgt]
  · intro hact h0 hle hbal
    simp [postTransaction, hact, not_le.mpr h0, not_lt.mpr hle, hbal]

/-- Witness for C8: an inactive member attempting a cashback payment is
rejected with `MembershipInactive`; a member with usable balance 2,500
attempting to spend 10,000 is rejected with `InsufficientCashback`; the
store is unchanged in both cases. -/
theorem C8_post_transaction_rejections_witness :
    postTransaction ⟨none, [], []⟩ 10000 PaymentType.cashback 500
        ⟨⟨2025, 6, 15⟩, 0⟩
      = ⟨some TxError.membershipInactive, ⟨none, [], []⟩⟩
    ∧ postTransaction
        ⟨some ⟨⟨2025, 12, 31⟩, 0⟩, [],
          [⟨EntryType.earn, 2500, some ⟨2025, 1, 1⟩⟩]⟩
        20000 PaymentType.cashback 10000 ⟨⟨2025, 6, 15⟩, 0⟩
      = ⟨some TxError.insufficientCashback,
          ⟨some ⟨⟨2025, 12, 31⟩, 0⟩, [],
            [⟨EntryType.earn, 2500, some ⟨2025, 1, 1⟩⟩]⟩⟩ :=
  ⟨(C8_post_transaction_rejections ⟨none, [], []⟩ 10000 500
      ⟨⟨2025, 6, 15⟩, 0⟩).1 (by decide),
   (C8_post_transaction_rejections
      ⟨some ⟨⟨2025, 12, 31⟩, 0⟩, [],
        [⟨EntryType.earn, 2500, some ⟨2025, 1, 1⟩⟩]⟩
      20000 10000 ⟨⟨2025, 6, 15⟩, 0⟩).2.2.2
        (by decide) (by decide) (by decide) (by decide)⟩

/-- C9. When the `membership_payments` insert succeeds but the subsequent
member update fails, the pay route surfaces a store failure (HTTP 500) but
leaves the payment row written with `membership_end_at` unchanged: the
resulting state is neither the pre-operation state nor the completed one —
the member record and the payment records are mutually inconsistent (no
compensating write or retry exists in the code). -/
theorem C9_pay_partial_failure_inconsistency :
    (payRun ⟨none, []⟩ 35000 ⟨⟨2025, 6, 15⟩, 43200000⟩ false true).err
        = some OpError.storeUnavailable
    ∧ ¬ consistentState
        (payRun ⟨none, []⟩ 35000 ⟨⟨2025, 6, 15⟩, 43200000⟩ false true).state
    ∧ (payRun ⟨none, []⟩ 35000 ⟨⟨2025, 6, 15⟩, 43200000⟩ false true).state
        ≠ (⟨none, []⟩ : MemberState)
    ∧ (payRun ⟨none, []⟩ 35000 ⟨⟨2025, 6, 15⟩, 43200000⟩ false true).state
        ≠ (pay ⟨none, []⟩ 35000 ⟨⟨2025, 6, 15⟩, 43200000⟩).state := by
  refine ⟨by decide, ?_, by decide, by decide⟩
  unfold consistentState
  decide

/-- C10 (amended). `isActive(m)` is true iff `membershipEndAt` exists and
the Jakarta end-of-day boundary of it is at or after `now`; this is the
rule (`isMembershipActive`) that the member-list view, the detail view and
the transactions route use.  The pay route's own activity decision is the
strict instant comparison instead (see the counterexample). -/
theorem C10_is_active_rule (row : MemberRow) (now : Instant) :
    ((mapMemberRow row now).isActive = true
      ↔ ∃ e, row.membershipEndAt = some e ∧ instLE now (endOfDay e.day))
    ∧ (mapMemberRow row now).isActive
        = isMembershipActive row.membershipEndAt now := by
  refine ⟨?_, rfl⟩
  cases row with
  | mk endAt =>
    cases endAt with
    | none => simp [mapMemberRow, isMembershipActive]
    | some e => simp [mapMemberRow, isMembershipActive]

/-- Witness for C10 (amended): a member whose end date is the current
Jakarta day is active at noon of that day. -/
theorem C10_is_active_rule_witness :
    (mapMemberRow ⟨some ⟨⟨2025, 6, 10⟩, 0⟩⟩
      ⟨⟨2025, 6, 10⟩, 43200000⟩).isActive = true :=
  (C10_is_active_rule ⟨some ⟨⟨2025, 6, 10⟩, 0⟩⟩
      ⟨⟨2025, 6, 10⟩, 43200000⟩).1.mpr
    ⟨⟨⟨2025, 6, 10⟩, 0⟩, rfl, by decide⟩

/-- Counterexample for C10 as stated: at noon of the member's end day the
claimed rule (end-of-day boundary) says Active, but the pay route — an
operation that uses activity — compares the stored end instant strictly
against now and treats the member as lapsed, taking now as the renewal
base. -/
theorem C10_pay_activity_counterexample :
    isMembershipActive (some ⟨⟨2025, 6, 10⟩, 0⟩) ⟨⟨2025, 6, 10⟩, 43200000⟩
        = true
    ∧ payConsidersActive (some ⟨⟨2025, 6, 10⟩, 0⟩) ⟨⟨2025, 6, 10⟩, 43200000⟩
        = false
    ∧ payBase (some ⟨⟨2025, 6, 10⟩, 0⟩) ⟨⟨2025, 6, 10⟩, 43200000⟩
        = ⟨⟨2025, 6, 10⟩, 43200000⟩ := by
  refine ⟨by decide, by decide, by decide⟩
